import Mathlib

/-!
Verification development for the `coretoolbox` launcher
(`src/coretoolbox.rs`).  The Rust source is shallowly embedded below:
pure computations become Lean functions, the ambient host state (the
environment, path existence, the real UID, the pid, the random value
drawn for the state-file name) becomes an explicit `HostState` record,
and subprocess interaction with the container runtime is modelled by a
`PodmanState` oracle together with a trace of the commands that would
be spawned.  Machine integers (`u32`) are modelled as `Nat` with
explicit `% 2^32` wrapping where the source can overflow.
-/

namespace Coretoolbox

/-- `static MAX_UID_COUNT : u32 = 65536` (line 16 of the source). -/
def MAX_UID_COUNT : Nat := 65536

/-- The modulus of Rust `u32` arithmetic. -/
def U32_MOD : Nat := 4294967296

/-- Wrapping `u32` addition (Rust release-mode overflow semantics). -/
def u32add (a b : Nat) : Nat := (a + b) % U32_MOD

/-- Wrapping `u32` subtraction (Rust release-mode overflow semantics);
faithful for `b < 2^32`, which holds for every `u32` value. -/
def u32sub (a b : Nat) : Nat := (a + U32_MOD - b) % U32_MOD

/-- `static PRESERVED_ENV : &[&str]` (lines 18-36 of the source). -/
def PRESERVED_ENV : List String :=
  ["COLORTERM",
   "DBUS_SESSION_BUS_ADDRESS",
   "DESKTOP_SESSION",
   "DISPLAY",
   "LANG",
   "SHELL",
   "SSH_AUTH_SOCK",
   "TERM",
   "VTE_VERSION",
   "XDG_CURRENT_DESKTOP",
   "XDG_DATA_DIRS",
   "XDG_MENU_PREFIX",
   "XDG_RUNTIME_DIR",
   "XDG_SEAT",
   "XDG_SESSION_DESKTOP",
   "XDG_SESSION_ID",
   "XDG_SESSION_TYPE",
   "XDG_VTNR"]

/-- The opening-brace character, written numerically. -/
def lbrace : Char := Char.ofNat 123

/-- The closing-brace character, written numerically. -/
def rbrace : Char := Char.ofNat 125

/-- The digit characters used by Rust's integer `Display`/`LowerHex`
formatting: `0`-`9` then lowercase `a`-`f`. -/
def hexDigitChar (n : Nat) : Char :=
  Char.ofNat (if n < 10 then 48 + n else 87 + n)

/-- Fueled most-significant-digit-first numeral writer shared by the
decimal (`base = 10`) and lower-hex (`base = 16`) formatters.  The fuel
only bounds the recursion depth; `natDecChars`/`natHexChars` supply
enough of it for the result to be exact. -/
def natToBaseAux (base : Nat) : Nat → Nat → List Char → List Char
  | 0, _, acc => acc
  | fuel + 1, n, acc =>
    if n < base then hexDigitChar n :: acc
    else natToBaseAux base fuel (n / base) (hexDigitChar (n % base) :: acc)

/-- Decimal formatting of a nonnegative integer, as Rust `format!("{}")`
produces for unsigned integers. -/
def natDecChars (n : Nat) : List Char := natToBaseAux 10 (n + 1) n []

/-- Lowercase hexadecimal formatting, as Rust `format!("{:x}")`
produces for unsigned integers. -/
def natHexChars (n : Nat) : List Char := natToBaseAux 16 (n + 1) n []

/-- Decimal formatting as a `String`. -/
def natDec (n : Nat) : String := ⟨natDecChars n⟩

/-- Lowercase hex formatting as a `String`. -/
def natHex (n : Nat) : String := ⟨natHexChars n⟩

/-- serde_json's escaping of one character inside a JSON string:
`"` and `\` get a backslash escape, the five control characters with
short escapes use them, every other control character below `0x20`
becomes `\u00XX` with lowercase hex, and everything else is emitted
verbatim. -/
def escChar (c : Char) : List Char :=
  if c = '"' then ['\\', '"']
  else if c = '\\' then ['\\', '\\']
  else if c.toNat = 8 then ['\\', 'b']
  else if c.toNat = 9 then ['\\', 't']
  else if c.toNat = 10 then ['\\', 'n']
  else if c.toNat = 12 then ['\\', 'f']
  else if c.toNat = 13 then ['\\', 'r']
  else if c.toNat < 32 then
    ['\\', 'u', '0', '0', hexDigitChar (c.toNat / 16), hexDigitChar (c.toNat % 16)]
  else [c]

/-- serde_json's escaping of a whole string body. -/
def escChars : List Char → List Char
  | [] => []
  | c :: cs => escChar c ++ escChars cs

/-- A JSON string literal: quote, escaped body, quote. -/
def jsonString (l : List Char) : List Char := '"' :: (escChars l ++ ['"'])

/-- `struct EntrypointState` (lines 104-109 of the source): the
handshake record written by the launcher and read by the entrypoint.
`uid` is a `u32`; theorems carry the `< 2^32` bound explicitly. -/
structure EntrypointState where
  username : String
  uid : Nat
  ostree_based_host : Bool
deriving DecidableEq, Repr

/-- The exact byte stream `serde_json::to_writer` produces for the
derived `Serialize` of `EntrypointState`: keys in declaration order,
no whitespace, strings escaped per serde_json, the `u32` in decimal,
the `bool` as a `true`/`false` literal. -/
def encodeChars (st : EntrypointState) : List Char :=
  [lbrace] ++ jsonString "username".data ++ [':'] ++ jsonString st.username.data
    ++ [','] ++ jsonString "uid".data ++ [':'] ++ natDecChars st.uid
    ++ [','] ++ jsonString "ostree_based_host".data ++ [':']
    ++ (if st.ostree_based_host then "true".data else "false".data)
    ++ [rbrace]

/-- Serialization of the handshake state (source line 170,
`serde_json::to_writer(&mut w, &state)`). -/
def encodeEntrypointState (st : EntrypointState) : String := ⟨encodeChars st⟩

/-- serde_json's whitespace characters. -/
def isWsChar (c : Char) : Bool :=
  c = ' ' || c.toNat = 9 || c.toNat = 10 || c.toNat = 13

/-- Skip leading JSON whitespace, as serde_json does between tokens. -/
def skipWs : List Char → List Char
  | [] => []
  | c :: rest => if isWsChar c then skipWs rest else c :: rest

/-- Consume an expected literal token. -/
def expectChars : List Char → List Char → Option (List Char)
  | [], l => some l
  | _ :: _, [] => none
  | t :: ts, c :: cs => if c = t then expectChars ts cs else none

/-- The numeric value of one hex digit, upper or lower case, as
serde_json's `decode_hex_val` accepts. -/
def hexVal (c : Char) : Option Nat :=
  if 48 ≤ c.toNat ∧ c.toNat ≤ 57 then some (c.toNat - 48)
  else if 97 ≤ c.toNat ∧ c.toNat ≤ 102 then some (c.toNat - 87)
  else if 65 ≤ c.toNat ∧ c.toNat ≤ 70 then some (c.toNat - 55)
  else none

/-- Four hex digits, as in a `\uXXXX` escape. -/
def parseHex4 : List Char → Option (Nat × List Char)
  | a :: b :: c :: d :: rest =>
    match hexVal a, hexVal b, hexVal c, hexVal d with
    | some va, some vb, some vc, some vd =>
      some (va * 4096 + vb * 256 + vc * 16 + vd, rest)
    | _, _, _, _ => none
  | _ => none

/-- serde_json's handling of the character following a backslash in a
string: the eight simple escapes, and `\uXXXX` with UTF-16 surrogate
pairs combined and lone surrogates rejected (serde_json's default,
non-lossy behaviour). -/
def parseEsc : List Char → Option (Char × List Char)
  | [] => none
  | e :: rest =>
    if e = '"' then some ('"', rest)
    else if e = '\\' then some ('\\', rest)
    else if e = '/' then some ('/', rest)
    else if e = 'b' then some (Char.ofNat 8, rest)
    else if e = 'f' then some (Char.ofNat 12, rest)
    else if e = 'n' then some (Char.ofNat 10, rest)
    else if e = 'r' then some (Char.ofNat 13, rest)
    else if e = 't' then some (Char.ofNat 9, rest)
    else if e = 'u' then
      match parseHex4 rest with
      | none => none
      | some (n, rest2) =>
        if 55296 ≤ n ∧ n ≤ 56319 then
          match rest2 with
          | '\\' :: 'u' :: rest3 =>
            match parseHex4 rest3 with
            | some (n2, rest4) =>
              if 56320 ≤ n2 ∧ n2 ≤ 57343 then
                some (Char.ofNat (65536 + (n - 55296) * 1024 + (n2 - 56320)), rest4)
              else none
            | none => none
          | _ => none
        else if 56320 ≤ n ∧ n ≤ 57343 then none
        else some (Char.ofNat n, rest2)
    else none

/-- Fueled JSON string-body scanner (the part after the opening quote):
plain characters are taken verbatim, raw control characters are
rejected, escapes go through `parseEsc`, a closing quote ends the
string.  The fuel only bounds recursion depth. -/
def parseJStringAux : Nat → List Char → Option (List Char × List Char)
  | 0, _ => none
  | _ + 1, [] => none
  | fuel + 1, c :: rest =>
    if c = '"' then some ([], rest)
    else if c = '\\' then
      match parseEsc rest with
      | none => none
      | some (d, r) =>
        match parseJStringAux fuel r with
        | none => none
        | some (cs, r2) => some (d :: cs, r2)
    else if c.toNat < 32 then none
    else
      match parseJStringAux fuel rest with
      | none => none
      | some (cs, r2) => some (c :: cs, r2)

/-- A JSON string literal: an opening quote followed by a body. -/
def parseJString (l : List Char) : Option (List Char × List Char) :=
  match l with
  | '"' :: rest => parseJStringAux (rest.length + 1) rest
  | _ => none

/-- Decimal digit test. -/
def isDigitChar (c : Char) : Bool := 48 ≤ c.toNat && c.toNat ≤ 57

/-- Accumulate decimal digits into a number, stopping at the first
non-digit. -/
def parseDigitsAux (acc : Nat) : List Char → Nat × List Char
  | [] => (acc, [])
  | c :: rest =>
    if isDigitChar c then parseDigitsAux (acc * 10 + (c.toNat - 48)) rest
    else (acc, c :: rest)

/-- An unsigned JSON integer: at least one digit.  (serde_json also
rejects redundant leading zeros and checks for `u64` overflow while
accumulating; neither case is reachable from output of the serializer
modelled here.) -/
def parseNat (l : List Char) : Option (Nat × List Char) :=
  match l with
  | [] => none
  | c :: rest =>
    if isDigitChar c then some (parseDigitsAux (c.toNat - 48) rest) else none

/-- A JSON `true`/`false` literal. -/
def parseBool (l : List Char) : Option (Bool × List Char) :=
  match expectChars "true".data l with
  | some r => some (true, r)
  | none =>
    match expectChars "false".data l with
    | some r => some (false, r)
    | none => none

/-- The entrypoint's decoder (source lines 199-202,
`serde_json::from_reader` into the derived `Deserialize` of
`EntrypointState`), modelled for the field order the serializer emits;
whitespace is skipped between tokens as serde_json does, the `uid`
value must fit in a `u32`, and only trailing whitespace may follow the
closing brace. -/
def decodeEntrypointState (s : String) : Option EntrypointState := do
  let l := skipWs s.data
  let l ← expectChars [lbrace] l
  let (k1, l) ← parseJString (skipWs l)
  if k1 = "username".data then do
    let l ← expectChars [':'] (skipWs l)
    let (uname, l) ← parseJString (skipWs l)
    let l ← expectChars [','] (skipWs l)
    let (k2, l) ← parseJString (skipWs l)
    if k2 = "uid".data then do
      let l ← expectChars [':'] (skipWs l)
      let (uidVal, l) ← parseNat (skipWs l)
      if uidVal < U32_MOD then do
        let l ← expectChars [','] (skipWs l)
        let (k3, l) ← parseJString (skipWs l)
        if k3 = "ostree_based_host".data then do
          let l ← expectChars [':'] (skipWs l)
          let (b, l) ← parseBool (skipWs l)
          let l ← expectChars [rbrace] (skipWs l)
          if skipWs l = [] then
            some ⟨⟨uname⟩, uidVal, b⟩
          else none
        else none
      else none
    else none
  else none

/-- One command the launcher would hand to the operating system: the
binary to spawn (or exec) and its arguments. -/
structure PodmanCmd where
  bin : String
  args : List String
deriving DecidableEq, Repr

/-- The ambient host-side state the launcher reads: the process
environment (values modelled as text; the source separately errors on
values that are not valid UTF-8), path existence on the host
filesystem, the real UID (`getuid()`, a `u32`), the launcher's pid
(`getpid()`, nonnegative in practice), the random `u32` drawn for the
state-file name, and the resolved target of `/proc/self/exe`. -/
structure HostState where
  env : String → Option String
  pathExists : String → Bool
  realUid : Nat
  pid : Nat
  randomVal : Nat
  selfBin : String

/-- What the container runtime's local state answers to `inspect`
queries: image presence and container presence by name. -/
structure PodmanState where
  hasImage : String → Bool
  hasContainer : String → Bool

/-- `fn cmd_podman()` (source lines 57-63): the runtime binary is the
value of the environment variable named `podman` when set, otherwise
the fixed name `"podman"`. -/
def cmd_podman (env : String → Option String) : String :=
  match env "podman" with
  | some podman => podman
  | none => "podman"

/-- `fn is_ostree_based_host()` (source lines 66-68). -/
def is_ostree_based_host (pathExists : String → Bool) : Bool :=
  pathExists "/run/ostree-booted"

/-- `enum InspectType` (source lines 70-73). -/
inductive InspectType where
  | container
  | image

/-- `fn podman_has` (source lines 75-84): the inspect command that
would be spawned, and whether its exit status is success (the runtime
reports presence of the named object). -/
def podman_has (env : String → Option String) (ps : PodmanState)
    (t : InspectType) (name : String) : PodmanCmd × Bool :=
  let typearg := match t with
    | InspectType.container => "container"
    | InspectType.image => "image"
  (⟨cmd_podman env, ["inspect", "--type", typearg, name]⟩,
   match t with
   | InspectType.container => ps.hasContainer name
   | InspectType.image => ps.hasImage name)

/-- `fn ensure_image` (source lines 87-94): inspect; if the image is
absent, pull, and fail when the pull exits non-zero.  Returns the
runtime state afterwards (a successful pull adds the image to local
storage — that effect belongs to the runtime, not this program), the
trace of spawned commands, and the result. -/
def ensure_image (env : String → Option String) (ps : PodmanState)
    (pullOk : Bool) (name : String) :
    PodmanState × List PodmanCmd × Except String Unit :=
  let (icmd, has) := podman_has env ps InspectType.image name
  if has then (ps, [icmd], Except.ok ())
  else
    let pcmd : PodmanCmd := ⟨cmd_podman env, ["pull", name]⟩
    if pullOk then
      ({ ps with hasImage := fun n => n == name || ps.hasImage n },
       [icmd, pcmd], Except.ok ())
    else (ps, [icmd, pcmd], Except.error "Failed to pull image")

/-- `fn getenv_required_utf8` (source lines 96-102), for text-valued
variables: the value when set, the source's error message when unset. -/
def getenv_required_utf8 (env : String → Option String) (n : String) :
    Except String String :=
  match env n with
  | some v => Except.ok v
  | none => Except.error (n ++ " is unset")

/-- The three `--uidmap` triples the launcher computes from the real
UID (source lines 130-135), with Rust release-mode wrapping `u32`
arithmetic for `real_uid + 1` and `MAX_UID_COUNT - real_uid` (debug
builds would panic on overflow instead; neither build validates the
UID).  Each triple holds the three numbers of one
`--uidmap=a:b:len` argument in order. -/
def uidmapTriples (u : Nat) : List (Nat × Nat × Nat) :=
  [(u, 0, 1), (0, 1, u), (u32add u 1, u32add u 1, u32sub MAX_UID_COUNT u)]

/-- The formatted `--uidmap` arguments (source lines 133-135). -/
def uidmapArgs (u : Nat) : List String :=
  (uidmapTriples u).map
    (fun t => "--uidmap=" ++ natDec t.1 ++ ":" ++ natDec t.2.1 ++ ":" ++ natDec t.2.2)

/-- The fixed candidate device paths (source line 137). -/
def CANDIDATE_DEVICES : List String := ["/dev/bus", "/dev/dri", "/dev/fuse"]

/-- Device mounts: each candidate that exists on the host, mounted at
the same path (source lines 137-141). -/
def deviceMountArgs (pathExists : String → Bool) : List String :=
  CANDIDATE_DEVICES.filterMap
    (fun p => if pathExists p then some ("--volume=" ++ p ++ ":" ++ p ++ ":rslave") else none)

/-- The unconditional host mounts (source lines 142-144). -/
def hostMountArgs : List String :=
  (["/usr", "/var", "/etc", "/run"] : List String).map
    (fun p => "--volume=" ++ p ++ ":/host" ++ p ++ ":rslave")

/-- The conditional mounts (source lines 145-151): `/sysroot` on an
OSTree-based host, otherwise `/media`, `/mnt`, `/home`, `/srv`. -/
def conditionalMountArgs (ostree : Bool) : List String :=
  if ostree then ["--volume=/sysroot:/host/sysroot:rslave"]
  else
    (["/media", "/mnt", "/home", "/srv"] : List String).map
      (fun p => "--volume=" ++ p ++ ":/host" ++ p ++ ":rslave")

/-- The allowlisted environment variables that are actually set, with
their values, in allowlist order (source lines 152-159; set values
that are not valid UTF-8 make the source error out and are outside
this text-valued model). -/
def forwardedEnv (env : String → Option String) : List (String × String) :=
  PRESERVED_ENV.filterMap (fun n => (env n).map (fun v => (n, v)))

/-- The `--env=NAME=value` forwarding arguments (source line 158). -/
def envArgs (env : String → Option String) : List String :=
  (forwardedEnv env).map (fun p => "--env=" ++ p.1 ++ "=" ++ p.2)

/-- The handshake file name (source lines 120-123):
`toolbox-data-<pid>-<hex-random>`. -/
def statefileName (pid r : Nat) : String :=
  "toolbox-data-" ++ natDec pid ++ "-" ++ natHex r

/-- Everything `fn run` decides before replacing itself with the
runtime invocation: the full `podman run` command, where the handshake
file is created, and the bytes written into it. -/
structure LaunchPlan where
  cmd : PodmanCmd
  statefilePath : String
  statefileContent : String
deriving DecidableEq, Repr

/-- `fn run` (source lines 111-178) as a pure launch-plan computation:
ensure the image is present, read `XDG_RUNTIME_DIR`, accumulate the
`podman run` arguments in source order (base flags, the self-binary
volume, the uidmaps, existing device mounts, the four `/host` mounts,
the conditional mounts, the forwarded environment, the state-file
variable), read `USER`, serialize the handshake state, and finish with
the entrypoint flag and the image.  Errors propagate exactly where the
source's `?` operators sit. -/
def run (st : HostState) (ps : PodmanState) (pullOk : Bool)
    (image : String) : Except String LaunchPlan :=
  match (ensure_image st.env ps pullOk image).2.2 with
  | Except.error e => Except.error e
  | Except.ok () =>
    match getenv_required_utf8 st.env "XDG_RUNTIME_DIR" with
    | Except.error e => Except.error e
    | Except.ok runtime_dir =>
      match getenv_required_utf8 st.env "USER" with
      | Except.error e => Except.error e
      | Except.ok username =>
        let statefile := statefileName st.pid st.randomVal
        let state : EntrypointState :=
          ⟨username, st.realUid, is_ostree_based_host st.pathExists⟩
        Except.ok
          { cmd :=
              ⟨cmd_podman st.env,
               ["run", "--rm", "-ti", "--hostname", "toolbox",
                "--name", "coreos-toolbox", "--network", "host",
                "--privileged", "--security-opt", "label-disable"]
                ++ ["--volume=" ++ st.selfBin ++ ":/toolbox.entrypoint:rslave"]
                ++ uidmapArgs st.realUid
                ++ deviceMountArgs st.pathExists
                ++ hostMountArgs
                ++ conditionalMountArgs (is_ostree_based_host st.pathExists)
                ++ envArgs st.env
                ++ ["--env=TOOLBOX_STATEFILE=" ++ statefile]
                ++ ["--entrypoint=/toolbox.entrypoint"]
                ++ [image]⟩
            statefilePath := runtime_dir ++ "/" ++ statefile
            statefileContent := encodeEntrypointState state }

/-- A value read from the environment that may not be valid UTF-8
(Rust `OsString`): either text, or some non-text byte sequence. -/
inductive OsStr where
  | utf8 (s : String)
  | nonUtf8

/-- The entrypoint's shell resolution (source lines 206-207):
`std::env::var_os("SHELL").unwrap_or("sh".into()).into_string()
.map_err(...)?` — the default `"sh"` is substituted only when `SHELL`
is unset; a set but non-text value makes `into_string` fail and the
`?` propagate an `Invalid SHELL` error. -/
def resolveShell (shellVar : Option OsStr) : Except String String :=
  match shellVar.getD (OsStr.utf8 "sh") with
  | OsStr.utf8 s => Except.ok s
  | OsStr.nonUtf8 => Except.error "Invalid SHELL"

/-- Whether a `--uidmap` triple `(a, b, len)` covers the container-side
UID `x`.  Following the spec's reading of the emitted
`--uidmap=a:b:len` arguments (the triple `(u, 0, 1)` "maps the real
host UID `u` to container UID 0"), `a` is the host-side range start
and `b` the container-side range start. -/
def containerCovers (t : Nat × Nat × Nat) (x : Nat) : Bool :=
  t.2.1 ≤ x && x < t.2.1 + t.2.2

/-- Apply a `--uidmap` triple `(a, b, len)` to a host-side UID: host
UIDs in `[a, a + len)` map to container UIDs `[b, b + len)` at the
same offset. -/
def mapHostUid (t : Nat × Nat × Nat) (h : Nat) : Option Nat :=
  if t.1 ≤ h ∧ h < t.1 + t.2.2 then some (t.2.1 + (h - t.1)) else none

/-- The `--image` option's default value (source line 43). -/
def defaultImage : String := "registry.fedoraproject.org/f30/fedora-toolbox:30"

/-- The end-to-end scenario's host: `USER=alice`,
`XDG_RUNTIME_DIR=/run/user/1000`, real UID 1000, no marker path and no
device path present, an arbitrary concrete pid (1234) and random value
(0xcafe). -/
def stScenario : HostState :=
  { env := fun n =>
      if n = "USER" then some "alice"
      else if n = "XDG_RUNTIME_DIR" then some "/run/user/1000" else none,
    pathExists := fun _ => false,
    realUid := 1000, pid := 1234, randomVal := 51966,
    selfBin := "/usr/bin/coretoolbox" }

/-- A runtime that already has every image locally. -/
def psAllImages : PodmanState :=
  { hasImage := fun _ => true, hasContainer := fun _ => false }

/-- The launch plan of the end-to-end scenario. -/
def planScenario : LaunchPlan :=
  (run stScenario psAllImages true defaultImage).toOption.getD ⟨⟨"", []⟩, "", ""⟩

/-- A host whose real UID is 0 (root), used to evaluate the unchecked
mapping arithmetic. -/
def stUidZero : HostState :=
  { env := fun n =>
      if n = "USER" then some "root"
      else if n = "XDG_RUNTIME_DIR" then some "/run/user/0" else none,
    pathExists := fun _ => false,
    realUid := 0, pid := 7, randomVal := 1,
    selfBin := "/usr/bin/coretoolbox" }

/-- An OSTree-based host (the `/run/ostree-booted` marker exists),
with a `podman` override variable set, used as a concrete witness
input. -/
def stOstree : HostState :=
  { env := fun n =>
      if n = "USER" then some "bob"
      else if n = "XDG_RUNTIME_DIR" then some "/run/user/502"
      else if n = "podman" then some "/opt/bin/podman2" else none,
    pathExists := fun p => p = "/run/ostree-booted",
    realUid := 502, pid := 99, randomVal := 16383,
    selfBin := "/usr/local/bin/coretoolbox" }

/-- The launch plan of the OSTree witness host. -/
def planOstree : LaunchPlan :=
  (run stOstree psAllImages true defaultImage).toOption.getD ⟨⟨"", []⟩, "", ""⟩

/-- The launch plan `run` produces when it succeeds with runtime
directory `rd` and username `user`: a restatement of `run`'s success
branch used to destructure successful runs. -/
def expectedPlan (st : HostState) (image rd user : String) : LaunchPlan :=
  { cmd := ⟨cmd_podman st.env,
      ["run", "--rm", "-ti", "--hostname", "toolbox",
       "--name", "coreos-toolbox", "--network", "host",
       "--privileged", "--security-opt", "label-disable"]
      ++ ["--volume=" ++ st.selfBin ++ ":/toolbox.entrypoint:rslave"]
      ++ uidmapArgs st.realUid
      ++ deviceMountArgs st.pathExists
      ++ hostMountArgs
      ++ conditionalMountArgs (is_ostree_based_host st.pathExists)
      ++ envArgs st.env
      ++ ["--env=TOOLBOX_STATEFILE=" ++ statefileName st.pid st.randomVal]
      ++ ["--entrypoint=/toolbox.entrypoint"]
      ++ [image]⟩
    statefilePath := rd ++ "/" ++ statefileName st.pid st.randomVal
    statefileContent := encodeEntrypointState
      ⟨user, st.realUid, is_ostree_based_host st.pathExists⟩ }

theorem natToBaseAux_acc (fuel n : Nat) (acc : List Char) (h : n < fuel) :
    natToBaseAux 10 fuel n acc = natToBaseAux 10 fuel n [] ++ acc := by
  induction fuel generalizing n acc with
  | zero => omega
  | succ f ih =>
    simp only [natToBaseAux]
    by_cases h10 : n < 10
    · simp [h10]
    · simp only [if_neg h10]
      rw [ih (n / 10) _ (by omega), ih (n / 10) [hexDigitChar (n % 10)] (by omega),
        List.append_assoc]
      simp

theorem natToBaseAux_fuel (f1 f2 n : Nat) (acc : List Char) (h1 : n < f1) (h2 : n < f2) :
    natToBaseAux 10 f1 n acc = natToBaseAux 10 f2 n acc := by
  induction f1 generalizing f2 n acc with
  | zero => omega
  | succ f ih =>
    cases f2 with
    | zero => omega
    | succ g =>
      simp only [natToBaseAux]
      by_cases h10 : n < 10
      · simp [h10]
      · simp only [if_neg h10]
        exact ih g (n / 10) _ (by omega) (by omega)

theorem natDecChars_eq (n : Nat) :
    natDecChars n = if n < 10 then [hexDigitChar n]
      else natDecChars (n / 10) ++ [hexDigitChar (n % 10)] := by
  by_cases h10 : n < 10
  · simp [natDecChars, natToBaseAux, h10]
  · simp only [if_neg h10, natDecChars]
    rw [show natToBaseAux 10 (n + 1) n [] = natToBaseAux 10 n (n / 10) [hexDigitChar (n % 10)]
        from by simp [natToBaseAux, h10]]
    rw [natToBaseAux_acc n (n / 10) _ (by omega),
      natToBaseAux_fuel n (n / 10 + 1) (n / 10) [] (by omega) (by omega)]

theorem hexDigitChar_toNat (k : Nat) (h : k < 16) :
    (hexDigitChar k).toNat = if k < 10 then 48 + k else 87 + k := by
  revert h
  revert k
  decide

theorem isDigitChar_hexDigitChar (k : Nat) (h : k < 10) :
    isDigitChar (hexDigitChar k) = true := by
  revert h
  revert k
  decide

theorem natDecChars_digits (n : Nat) : ∀ c ∈ natDecChars n, isDigitChar c = true := by
  induction n using Nat.strong_induction_on with
  | _ n ih =>
    rw [natDecChars_eq]
    by_cases h10 : n < 10
    · simp only [if_pos h10, List.mem_singleton]
      rintro c rfl
      exact isDigitChar_hexDigitChar n h10
    · simp only [if_neg h10, List.mem_append, List.mem_singleton]
      rintro c (hc | rfl)
      · exact ih (n / 10) (by omega) c hc
      · exact isDigitChar_hexDigitChar (n % 10) (by omega)

theorem natDecChars_ne_nil (n : Nat) : natDecChars n ≠ [] := by
  rw [natDecChars_eq]
  by_cases h10 : n < 10 <;> simp [h10]

theorem parseDigitsAux_natDecChars (n : Nat) :
    ∀ acc rest, parseDigitsAux acc (natDecChars n ++ rest)
      = parseDigitsAux (acc * 10 ^ (natDecChars n).length + n) rest := by
  induction n using Nat.strong_induction_on with
  | _ n ih =>
    intro acc rest
    rw [natDecChars_eq]
    by_cases h10 : n < 10
    · simp only [if_pos h10, List.singleton_append, List.length_singleton]
      rw [parseDigitsAux, if_pos (isDigitChar_hexDigitChar n h10)]
      rw [hexDigitChar_toNat n (by omega), if_pos h10]
      have : 48 + n - 48 = n := by omega
      rw [this]
      norm_num
    · simp only [if_neg h10, List.append_assoc, List.singleton_append, List.length_append,
        List.length_singleton]
      rw [ih (n / 10) (by omega) acc (hexDigitChar (n % 10) :: rest)]
      rw [parseDigitsAux, if_pos (isDigitChar_hexDigitChar (n % 10) (by omega))]
      rw [hexDigitChar_toNat (n % 10) (by omega), if_pos (by omega : n % 10 < 10)]
      have h1 : 48 + n % 10 - 48 = n % 10 := by omega
      rw [h1]
      have h2 : 10 * (n / 10) + n % 10 = n := Nat.div_add_mod n 10
      have h3 : (acc * 10 ^ (natDecChars (n / 10)).length + n / 10) * 10 + n % 10
          = acc * 10 ^ ((natDecChars (n / 10)).length + 1) + n := by
        rw [pow_succ]
        calc (acc * 10 ^ (natDecChars (n / 10)).length + n / 10) * 10 + n % 10
            = acc * (10 ^ (natDecChars (n / 10)).length * 10)
              + (10 * (n / 10) + n % 10) := by ring
          _ = acc * (10 ^ (natDecChars (n / 10)).length * 10) + n := by rw [h2]
      rw [h3]

theorem parseDigitsAux_not_digit (n : Nat) (rest : List Char)
    (h : ∀ c, rest.head? = some c → isDigitChar c = false) :
    parseDigitsAux n rest = (n, rest) := by
  cases rest with
  | nil => rfl
  | cons c r =>
    rw [parseDigitsAux, if_neg]
    simp [h c rfl]

theorem parseNat_natDecChars (n : Nat) (rest : List Char)
    (h : ∀ c, rest.head? = some c → isDigitChar c = false) :
    parseNat (natDecChars n ++ rest) = some (n, rest) := by
  have key : parseDigitsAux 0 (natDecChars n ++ rest) = (n, rest) := by
    rw [parseDigitsAux_natDecChars n 0 rest]
    simpa using parseDigitsAux_not_digit n rest h
  cases hnd : natDecChars n with
  | nil => exact absurd hnd (natDecChars_ne_nil n)
  | cons d t =>
    have hd : isDigitChar d = true := natDecChars_digits n d (by rw [hnd]; exact List.mem_cons_self d t)
    rw [List.cons_append, parseNat, if_pos hd]
    rw [hnd, List.cons_append] at key
    rw [parseDigitsAux, if_pos hd] at key
    simp only [Nat.zero_mul, Nat.zero_add] at key
    rw [key]


theorem parseJStringAux_quote (f : Nat) (l : List Char) :
    parseJStringAux (f + 1) ('"' :: l) = some ([], l) := by
  simp [parseJStringAux]

theorem parseJStringAux_esc (f : Nat) (e : Char) (l : List Char) (d : Char)
    (r : List Char) (cs : List Char) (r2 : List Char)
    (he : parseEsc (e :: l) = some (d, r)) (hr : parseJStringAux f r = some (cs, r2)) :
    parseJStringAux (f + 1) ('\\' :: e :: l) = some (d :: cs, r2) := by
  simp [parseJStringAux, he, hr]

theorem parseJStringAux_plain (f : Nat) (c : Char) (l : List Char) (cs : List Char)
    (r2 : List Char) (h1 : ¬c = '"') (h2 : ¬c = '\\') (h3 : ¬c.toNat < 32)
    (hr : parseJStringAux f l = some (cs, r2)) :
    parseJStringAux (f + 1) (c :: l) = some (c :: cs, r2) := by
  simp [parseJStringAux, h1, h2, h3, hr]

theorem parseEsc_quote (l : List Char) : parseEsc ('"' :: l) = some ('"', l) := by
  simp [parseEsc]

theorem parseEsc_backslash (l : List Char) : parseEsc ('\\' :: l) = some ('\\', l) := by
  simp [parseEsc]

theorem parseEsc_b (l : List Char) : parseEsc ('b' :: l) = some (Char.ofNat 8, l) := by
  simp [parseEsc]

theorem parseEsc_t (l : List Char) : parseEsc ('t' :: l) = some (Char.ofNat 9, l) := by
  simp [parseEsc]

theorem parseEsc_n (l : List Char) : parseEsc ('n' :: l) = some (Char.ofNat 10, l) := by
  simp [parseEsc]

theorem parseEsc_f (l : List Char) : parseEsc ('f' :: l) = some (Char.ofNat 12, l) := by
  simp [parseEsc]

theorem parseEsc_r (l : List Char) : parseEsc ('r' :: l) = some (Char.ofNat 13, l) := by
  simp [parseEsc]

theorem hexVal_hexDigitChar (k : Nat) (h : k < 16) : hexVal (hexDigitChar k) = some k := by
  revert h
  revert k
  decide

theorem hexVal_zero : hexVal '0' = some 0 := by decide

theorem parseEsc_u00 (c : Char) (h : c.toNat < 32) (l : List Char) :
    parseEsc ('u' :: '0' :: '0' :: hexDigitChar (c.toNat / 16)
      :: hexDigitChar (c.toNat % 16) :: l) = some (c, l) := by
  have h1 := hexVal_hexDigitChar (c.toNat / 16) (by omega)
  have h2 := hexVal_hexDigitChar (c.toNat % 16) (by omega)
  have hn : 0 * 4096 + 0 * 256 + c.toNat / 16 * 16 + c.toNat % 16 = c.toNat := by omega
  simp +decide only [parseEsc, parseHex4, hexVal_zero, h1, h2, hn, if_true, if_false]
  rw [if_neg (by omega), if_neg (by omega), Char.ofNat_toNat]



theorem escChar_length_pos (c : Char) : escChar c ≠ [] := by
  unfold escChar
  split_ifs <;> simp

theorem parseJStringAux_escChars (u : List Char) :
    ∀ fuel rest, u.length < fuel →
      parseJStringAux fuel (escChars u ++ ('"' :: rest)) = some (u, rest) := by
  induction u with
  | nil =>
    intro fuel rest h
    match fuel with
    | f + 1 => simpa [escChars] using parseJStringAux_quote f rest
  | cons c cs ih =>
    intro fuel rest h
    match fuel with
    | f + 1 =>
      have hcs : cs.length < f := by simp at h; omega
      have ihr := ih f rest hcs
      simp only [escChars, List.append_assoc]
      by_cases hq : c = '"'
      · subst hq
        rw [show escChar '"' = ['\\', '"'] from by simp [escChar]]
        exact parseJStringAux_esc f _ _ _ _ cs rest (parseEsc_quote _) ihr
      by_cases hb : c = '\\'
      · subst hb
        rw [show escChar '\\' = ['\\', '\\'] from by simp [escChar]]
        exact parseJStringAux_esc f _ _ _ _ cs rest (parseEsc_backslash _) ihr
      by_cases h8 : c.toNat = 8
      · rw [show escChar c = ['\\', 'b'] from by simp [escChar, hq, hb, h8]]
        rw [show c = Char.ofNat 8 from by rw [← h8, Char.ofNat_toNat]]
        exact parseJStringAux_esc f _ _ _ _ cs rest (parseEsc_b _) ihr
      by_cases h9 : c.toNat = 9
      · rw [show escChar c = ['\\', 't'] from by simp [escChar, hq, hb, h8, h9]]
        rw [show c = Char.ofNat 9 from by rw [← h9, Char.ofNat_toNat]]
        exact parseJStringAux_esc f _ _ _ _ cs rest (parseEsc_t _) ihr
      by_cases h10 : c.toNat = 10
      · rw [show escChar c = ['\\', 'n'] from by simp [escChar, hq, hb, h8, h9, h10]]
        rw [show c = Char.ofNat 10 from by rw [← h10, Char.ofNat_toNat]]
        exact parseJStringAux_esc f _ _ _ _ cs rest (parseEsc_n _) ihr
      by_cases h12 : c.toNat = 12
      · rw [show escChar c = ['\\', 'f'] from by simp [escChar, hq, hb, h8, h9, h10, h12]]
        rw [show c = Char.ofNat 12 from by rw [← h12, Char.ofNat_toNat]]
        exact parseJStringAux_esc f _ _ _ _ cs rest (parseEsc_f _) ihr
      by_cases h13 : c.toNat = 13
      · rw [show escChar c = ['\\', 'r'] from by simp [escChar, hq, hb, h8, h9, h10, h12, h13]]
        rw [show c = Char.ofNat 13 from by rw [← h13, Char.ofNat_toNat]]
        exact parseJStringAux_esc f _ _ _ _ cs rest (parseEsc_r _) ihr
      by_cases hlt : c.toNat < 32
      · rw [show escChar c
            = ['\\', 'u', '0', '0', hexDigitChar (c.toNat / 16), hexDigitChar (c.toNat % 16)]
          from by simp [escChar, hq, hb, h8, h9, h10, h12, h13, hlt]]
        exact parseJStringAux_esc f _ _ _ _ cs rest (parseEsc_u00 c hlt _) ihr
      · rw [show escChar c = [c] from by simp [escChar, hq, hb, h8, h9, h10, h12, h13, hlt]]
        exact parseJStringAux_plain f c _ cs rest hq hb hlt ihr

theorem escChars_length_ge (u : List Char) : u.length ≤ (escChars u).length := by
  induction u with
  | nil => simp [escChars]
  | cons c cs ih =>
    have := escChar_length_pos c
    simp only [escChars, List.length_cons, List.length_append]
    have hpos : 1 ≤ (escChar c).length := by
      cases hc : escChar c with
      | nil => exact absurd hc this
      | cons a t => simp
    omega

theorem parseJString_jsonString (u rest : List Char) :
    parseJString (jsonString u ++ rest) = some (u, rest) := by
  have hshape : jsonString u ++ rest = '"' :: (escChars u ++ ('"' :: rest)) := by
    simp [jsonString]
  rw [hshape, parseJString]
  exact parseJStringAux_escChars u _ rest
    (by have := escChars_length_ge u; simp; omega)



theorem skipWs_cons (c : Char) (l : List Char) (h : isWsChar c = false) :
    skipWs (c :: l) = c :: l := by
  simp [skipWs, h]

theorem skipWs_nil : skipWs [] = [] := rfl

theorem expectChars_append (t r : List Char) : expectChars t (t ++ r) = some r := by
  induction t with
  | nil => rfl
  | cons c ts ih => simp [expectChars, ih]

theorem expectChars_cons_self (c : Char) (l : List Char) :
    expectChars [c] (c :: l) = some l := by
  simp [expectChars]

theorem isWsChar_of_digit (d : Char) (hd : isDigitChar d = true) : isWsChar d = false := by
  have h1 : ¬d = ' ' := by
    intro hsp
    rw [hsp] at hd
    exact absurd hd (by decide)
  simp only [isDigitChar, Bool.and_eq_true, decide_eq_true_eq] at hd
  simp only [isWsChar, Bool.or_eq_false_iff, decide_eq_false_iff_not]
  exact ⟨⟨⟨h1, by omega⟩, by omega⟩, by omega⟩

theorem skipWs_natDecChars (n : Nat) (l : List Char) :
    skipWs (natDecChars n ++ l) = natDecChars n ++ l := by
  cases hnd : natDecChars n with
  | nil => exact absurd hnd (natDecChars_ne_nil n)
  | cons d t =>
    have hd := natDecChars_digits n d (by rw [hnd]; exact List.mem_cons_self d t)
    rw [List.cons_append]
    exact skipWs_cons _ _ (isWsChar_of_digit d hd)

theorem parseNat_comma (n : Nat) (r : List Char) :
    parseNat (natDecChars n ++ (',' :: r)) = some (n, ',' :: r) := by
  refine parseNat_natDecChars n (',' :: r) ?_
  rintro c hc
  simp only [List.head?_cons, Option.some.injEq] at hc
  rw [← hc]
  decide

theorem parseBool_true (r : List Char) : parseBool ("true".data ++ r) = some (true, r) := by
  rw [parseBool, expectChars_append]

theorem parseBool_false (r : List Char) :
    parseBool ("false".data ++ r) = some (false, r) := by
  have hne : expectChars "true".data ("false".data ++ r) = none := by
    rw [show "false".data ++ r = 'f' :: ("alse".data ++ r) from rfl]
    rw [show "true".data = 't' :: "rue".data from rfl]
    rw [expectChars, if_neg (by decide)]
  rw [parseBool, hne, expectChars_append]

theorem parseBool_true_cons (r : List Char) :
    parseBool ('t' :: 'r' :: 'u' :: 'e' :: r) = some (true, r) := by
  rw [show 't' :: 'r' :: 'u' :: 'e' :: r = "true".data ++ r from rfl]
  exact parseBool_true r

theorem parseBool_false_cons (r : List Char) :
    parseBool ('f' :: 'a' :: 'l' :: 's' :: 'e' :: r) = some (false, r) := by
  rw [show 'f' :: 'a' :: 'l' :: 's' :: 'e' :: r = "false".data ++ r from rfl]
  exact parseBool_false r

theorem skipWs_t (l : List Char) : skipWs ('t' :: l) = 't' :: l :=
  skipWs_cons _ _ (by decide)

theorem skipWs_f (l : List Char) : skipWs ('f' :: l) = 'f' :: l :=
  skipWs_cons _ _ (by decide)

theorem skipWs_lbrace (l : List Char) : skipWs (lbrace :: l) = lbrace :: l :=
  skipWs_cons _ _ (by decide)

theorem skipWs_quote (l : List Char) : skipWs ('"' :: l) = '"' :: l :=
  skipWs_cons _ _ (by decide)

theorem skipWs_colon (l : List Char) : skipWs (':' :: l) = ':' :: l :=
  skipWs_cons _ _ (by decide)

theorem skipWs_comma (l : List Char) : skipWs (',' :: l) = ',' :: l :=
  skipWs_cons _ _ (by decide)

theorem skipWs_rbrace (l : List Char) : skipWs (rbrace :: l) = rbrace :: l :=
  skipWs_cons _ _ (by decide)

theorem parseJString_quoted (u rest : List Char) :
    parseJString ('"' :: (escChars u ++ '"' :: rest)) = some (u, rest) := by
  rw [parseJString]
  exact parseJStringAux_escChars u _ rest
    (by have := escChars_length_ge u; simp; omega)

/-- C3: serializing any `EntrypointState` — any username string
(unicode included), any `uid` in `u32` range, either boolean — with
the handshake writer's encoding and decoding the result with the
entrypoint's decoder gives back a value equal to the original in all
three fields. -/
theorem handshake_roundtrip (st : EntrypointState) (h : st.uid < U32_MOD) :
    decodeEntrypointState (encodeEntrypointState st) = some st := by
  obtain ⟨u, uid, b⟩ := st
  simp only at h
  rw [decodeEntrypointState]
  rw [show (encodeEntrypointState ⟨u, uid, b⟩).data = encodeChars ⟨u, uid, b⟩ from rfl]
  cases b <;>
    (simp only [encodeChars, jsonString, List.append_assoc, List.cons_append,
      List.singleton_append, List.nil_append, Bool.false_eq_true, if_false, if_true,
      Option.bind_eq_bind', Option.some_bind, skipWs_lbrace, expectChars_cons_self,
      skipWs_quote, parseJString_quoted, skipWs_colon, skipWs_comma, skipWs_natDecChars,
      parseNat_comma, skipWs_t, skipWs_f, parseBool_true_cons, parseBool_false_cons,
      skipWs_rbrace, skipWs_nil, h, if_true, eq_self_iff_true, ite_true])



theorem u32add_one_small (u : Nat) (h : u < MAX_UID_COUNT) : u32add u 1 = u + 1 := by
  simp only [u32add, U32_MOD, MAX_UID_COUNT] at *
  omega

theorem u32sub_max (u : Nat) (h : u ≤ MAX_UID_COUNT) :
    u32sub MAX_UID_COUNT u = MAX_UID_COUNT - u := by
  simp only [u32sub, U32_MOD, MAX_UID_COUNT] at *
  omega

/-- C1: for every real host UID `u` in `[1, MAX_UID_COUNT - 1]`, the
three `--uidmap` triples the launcher emits have pairwise disjoint
container-side ranges, every container UID in `[0, MAX_UID_COUNT)` is
covered by exactly one of them, and the first triple maps the real
host UID `u` to container UID 0. -/
theorem uidmap_triples_partition (u : Nat) (h1 : 1 ≤ u) (h2 : u < MAX_UID_COUNT) :
    List.Pairwise
      (fun a b => ∀ x : Nat, ¬(containerCovers a x = true ∧ containerCovers b x = true))
      (uidmapTriples u)
    ∧ (∀ x : Nat, x < MAX_UID_COUNT →
        (uidmapTriples u).countP (fun t => containerCovers t x) = 1)
    ∧ mapHostUid (u, 0, 1) u = some 0
    ∧ (u, 0, 1) ∈ uidmapTriples u := by
  have ha := u32add_one_small u h2
  have hs := u32sub_max u (le_of_lt h2)
  simp only [MAX_UID_COUNT] at h2 ha hs ⊢
  rw [show uidmapTriples u = [(u, 0, 1), (0, 1, u), (u + 1, u + 1, 65536 - u)] from by
    simp only [uidmapTriples, MAX_UID_COUNT, ha, hs]]
  refine ⟨?_, ?_, ?_, ?_⟩
  · constructor
    · rintro b hb x ⟨hca, hcb⟩
      simp only [List.mem_cons, List.not_mem_nil, or_false] at hb
      rcases hb with rfl | rfl <;>
        (simp only [containerCovers, Bool.and_eq_true, decide_eq_true_eq] at hca hcb; omega)
    constructor
    · rintro b hb x ⟨hca, hcb⟩
      simp only [List.mem_cons, List.not_mem_nil, or_false] at hb
      subst hb
      simp only [containerCovers, Bool.and_eq_true, decide_eq_true_eq] at hca hcb
      omega
    constructor
    · rintro b hb
      simp at hb
    constructor
  · intro x hx
    simp only [List.countP_cons, List.countP_nil, containerCovers, Bool.and_eq_true,
      decide_eq_true_eq]
    split_ifs <;> omega
  · simp only [mapHostUid]
    rw [if_pos ⟨le_refl u, by omega⟩]
    simp
  · simp



theorem run_ok_shape (st : HostState) (ps : PodmanState) (pullOk : Bool) (image : String)
    (plan : LaunchPlan) (h : run st ps pullOk image = Except.ok plan) :
    ∃ rd user, st.env "XDG_RUNTIME_DIR" = some rd ∧ st.env "USER" = some user ∧
      plan = expectedPlan st image rd user := by
  cases hE : (ensure_image st.env ps pullOk image).2.2 with
  | error e =>
    rw [run, hE] at h
    exact Except.noConfusion h
  | ok u =>
    cases hX : st.env "XDG_RUNTIME_DIR" with
    | none =>
      rw [run, hE] at h
      simp only [getenv_required_utf8, hX] at h
      exact Except.noConfusion h
    | some rd =>
      cases hU : st.env "USER" with
      | none =>
        rw [run, hE] at h
        simp only [getenv_required_utf8, hX, hU] at h
        exact Except.noConfusion h
      | some user =>
        rw [run, hE] at h
        simp only [getenv_required_utf8, hX, hU] at h
        refine ⟨rd, user, rfl, rfl, ?_⟩
        injection h with h2
        exact h2.symm

theorem sublist_drop_front {l r : List String} (a : List String) (h : List.Sublist l r) :
    List.Sublist l (a ++ r) :=
  h.trans (List.sublist_append_right a r)

theorem cond_sublist_expected (st : HostState) (image rd user : String) :
    List.Sublist (conditionalMountArgs (is_ostree_based_host st.pathExists))
      (expectedPlan st image rd user).cmd.args := by
  simp only [expectedPlan, List.append_assoc]
  exact sublist_drop_front _ (sublist_drop_front _ (sublist_drop_front _
    (sublist_drop_front _ (sublist_drop_front _ (List.sublist_append_left _ _)))))



/-- C4: on every successful launch, the conditional host-path mount
arguments appear in the emitted command, and they are exactly the
`/sysroot` mount when the image-based-host marker exists, exactly the
`/media`, `/mnt`, `/home`, `/srv` mounts when it does not — never
both, never neither. -/
theorem conditional_mounts_dichotomy (st : HostState) (ps : PodmanState) (pullOk : Bool)
    (image : String) (plan : LaunchPlan) (h : run st ps pullOk image = Except.ok plan) :
    List.Sublist (conditionalMountArgs (is_ostree_based_host st.pathExists)) plan.cmd.args
    ∧ (conditionalMountArgs (is_ostree_based_host st.pathExists)
        = ["--volume=/sysroot:/host/sysroot:rslave"]
      ↔ is_ostree_based_host st.pathExists = true)
    ∧ (conditionalMountArgs (is_ostree_based_host st.pathExists)
        = ["--volume=/media:/host/media:rslave", "--volume=/mnt:/host/mnt:rslave",
           "--volume=/home:/host/home:rslave", "--volume=/srv:/host/srv:rslave"]
      ↔ is_ostree_based_host st.pathExists = false) := by
  obtain ⟨rd, user, hX, hU, rfl⟩ := run_ok_shape st ps pullOk image plan h
  refine ⟨cond_sublist_expected st image rd user, ?_, ?_⟩
  · cases hOs : is_ostree_based_host st.pathExists <;> decide
  · cases hOs : is_ostree_based_host st.pathExists <;> decide

/-- C5: the launcher emits a forwarding argument for an environment
variable exactly when the variable is in the fixed allowlist and set
in the host environment; unset allowlisted variables are skipped
without an error (the forwarding computation is total). -/
theorem env_forwarding_iff (env : String → Option String) (n v : String) :
    ((n, v) ∈ forwardedEnv env ↔ n ∈ PRESERVED_ENV ∧ env n = some v)
    ∧ envArgs env = (forwardedEnv env).map (fun p => "--env=" ++ p.1 ++ "=" ++ p.2) := by
  refine ⟨?_, rfl⟩
  simp only [forwardedEnv, List.mem_filterMap, Option.map_eq_some']
  constructor
  · rintro ⟨a, ha, w, hw, heq⟩
    simp only [Prod.mk.injEq] at heq
    obtain ⟨rfl, rfl⟩ := heq
    exact ⟨ha, hw⟩
  · rintro ⟨hn, hv⟩
    exact ⟨n, hn, v, hv, rfl⟩

/-- C9: the handshake file name is `toolbox-data-<pid>-<hex-random>`,
it is the final component of the path the launcher writes the
handshake file to under the runtime directory, and the identical
string is passed into the container through the `TOOLBOX_STATEFILE`
environment argument. -/
theorem statefile_name_consistency (st : HostState) (ps : PodmanState) (pullOk : Bool)
    (image : String) (plan : LaunchPlan) (h : run st ps pullOk image = Except.ok plan) :
    (∃ rd, st.env "XDG_RUNTIME_DIR" = some rd
      ∧ plan.statefilePath = rd ++ "/" ++ statefileName st.pid st.randomVal)
    ∧ ("--env=TOOLBOX_STATEFILE=" ++ statefileName st.pid st.randomVal) ∈ plan.cmd.args
    ∧ statefileName st.pid st.randomVal
        = "toolbox-data-" ++ natDec st.pid ++ "-" ++ natHex st.randomVal := by
  obtain ⟨rd, user, hX, hU, rfl⟩ := run_ok_shape st ps pullOk image plan h
  refine ⟨⟨rd, hX, rfl⟩, ?_, rfl⟩
  simp [expectedPlan, List.mem_append]

/-- C10: every runtime invocation a launch performs (the inspect and
pull of `ensure_image` and the final `podman run`) executes the binary
named by the host environment variable `podman` when it is set, and
the fixed binary `"podman"` otherwise. -/
theorem podman_binary_override (st : HostState) (ps : PodmanState) (pullOk : Bool)
    (image : String) (plan : LaunchPlan) (h : run st ps pullOk image = Except.ok plan) :
    plan.cmd.bin = cmd_podman st.env
    ∧ (∀ c ∈ (ensure_image st.env ps pullOk image).2.1, c.bin = cmd_podman st.env)
    ∧ (∀ p, st.env "podman" = some p → cmd_podman st.env = p)
    ∧ (st.env "podman" = none → cmd_podman st.env = "podman") := by
  obtain ⟨rd, user, hX, hU, rfl⟩ := run_ok_shape st ps pullOk image plan h
  refine ⟨rfl, ?_, ?_, ?_⟩
  · intro c hc
    simp only [ensure_image, podman_has] at hc
    split_ifs at hc <;>
      (simp only [List.mem_cons, List.mem_singleton, List.not_mem_nil, or_false] at hc;
       rcases hc with rfl | rfl <;> rfl)
  · intro p hp
    simp [cmd_podman, hp]
  · intro hp
    simp [cmd_podman, hp]



/-- C2: the end-to-end scenario — `USER=alice`,
`XDG_RUNTIME_DIR=/run/user/1000`, real UID 1000, image-based-host
marker absent, no candidate device path present — produces exactly the
uidmaps `1000:0:1`, `0:1:1000`, `1001:1001:64536`, the `/host` mounts
for `/usr`, `/var`, `/etc`, `/run` plus `/media`, `/mnt`, `/home`,
`/srv`, no device mounts, and a handshake file under `/run/user/1000/`
whose content decodes to `{username: "alice", uid: 1000,
ostree_based_host: false}`. -/
theorem end_to_end_scenario :
    (run stScenario psAllImages true defaultImage).toOption = some planScenario
    ∧ "--uidmap=1000:0:1" ∈ planScenario.cmd.args
    ∧ "--uidmap=0:1:1000" ∈ planScenario.cmd.args
    ∧ "--uidmap=1001:1001:64536" ∈ planScenario.cmd.args
    ∧ "--volume=/usr:/host/usr:rslave" ∈ planScenario.cmd.args
    ∧ "--volume=/var:/host/var:rslave" ∈ planScenario.cmd.args
    ∧ "--volume=/etc:/host/etc:rslave" ∈ planScenario.cmd.args
    ∧ "--volume=/run:/host/run:rslave" ∈ planScenario.cmd.args
    ∧ "--volume=/media:/host/media:rslave" ∈ planScenario.cmd.args
    ∧ "--volume=/mnt:/host/mnt:rslave" ∈ planScenario.cmd.args
    ∧ "--volume=/home:/host/home:rslave" ∈ planScenario.cmd.args
    ∧ "--volume=/srv:/host/srv:rslave" ∈ planScenario.cmd.args
    ∧ "--volume=/dev/bus:/dev/bus:rslave" ∉ planScenario.cmd.args
    ∧ "--volume=/dev/dri:/dev/dri:rslave" ∉ planScenario.cmd.args
    ∧ "--volume=/dev/fuse:/dev/fuse:rslave" ∉ planScenario.cmd.args
    ∧ planScenario.statefilePath = "/run/user/1000/" ++ statefileName 1234 51966
    ∧ decodeEntrypointState planScenario.statefileContent
        = some ⟨"alice", 1000, false⟩ := by
  decide

/-- C7: for `u = 0` and for `u ≥ MAX_UID_COUNT` the source performs
the unchecked `u32` arithmetic and succeeds — it evaluates to
degenerate or wrapped mapping triples (an empty second range for
`u = 0`; a wrapped length `2^32 - 4464` for `u = 70000`) instead of
returning a validated error. -/
theorem uidmap_unchecked_arithmetic :
    uidmapTriples 0 = [(0, 0, 1), (0, 1, 0), (1, 1, 65536)]
    ∧ uidmapTriples 70000 = [(70000, 0, 1), (0, 1, 70000), (70001, 70001, 4294962832)]
    ∧ (run stUidZero psAllImages true defaultImage).toOption.isSome = true := by
  refine ⟨by decide, by decide, by decide⟩

/-- C8: `ensure_image` first inspects; with the image present it pulls
nothing, changes nothing and succeeds (so repeating it is a no-op);
with the image absent it issues a pull and fails with the pull error
exactly when the pull subprocess exits non-zero. -/
theorem ensure_image_spec (env : String → Option String) (ps : PodmanState) (pullOk : Bool)
    (name : String) :
    (ps.hasImage name = true →
      ensure_image env ps pullOk name
        = (ps, [⟨cmd_podman env, ["inspect", "--type", "image", name]⟩], Except.ok ())
      ∧ (∀ c ∈ (ensure_image env ps pullOk name).2.1, c.args.head? ≠ some "pull")
      ∧ ensure_image env (ensure_image env ps pullOk name).1 pullOk name
          = ensure_image env ps pullOk name)
    ∧ (ps.hasImage name = false →
      (⟨cmd_podman env, ["pull", name]⟩ : PodmanCmd) ∈ (ensure_image env ps pullOk name).2.1
      ∧ ((ensure_image env ps pullOk name).2.2 = Except.ok () ↔ pullOk = true)
      ∧ (pullOk = true → ((ensure_image env ps pullOk name).1).hasImage name = true)) := by
  constructor
  · intro hhas
    simp only [ensure_image, podman_has, hhas, if_true]
    refine ⟨trivial, ?_, trivial⟩
    intro c hc
    simp only [List.mem_singleton] at hc
    subst hc
    exact (by decide : (some "inspect" : Option String) ≠ some "pull")
  · intro hhas
    simp only [ensure_image, podman_has, hhas, Bool.false_eq_true, if_false]
    cases pullOk
    · simp
    · simp

/-- C6 counterexample: with `SHELL` set to a value that is not
representable as text, the entrypoint's shell resolution fails with an
`Invalid SHELL` error instead of resolving to the basic default
shell. -/
theorem shell_nonutf8_fails :
    resolveShell (some OsStr.nonUtf8) = Except.error "Invalid SHELL"
    ∧ resolveShell (some OsStr.nonUtf8) ≠ Except.ok "sh" :=
  ⟨rfl, fun hc => Except.noConfusion hc⟩

/-- C6 (amended): the entrypoint resolves the interactive shell from
`SHELL`; it defaults to the basic shell `sh` only when `SHELL` is
unset, and when `SHELL` is set but not representable as text it fails
with an `Invalid SHELL` error rather than defaulting. -/
theorem shell_resolution :
    resolveShell none = Except.ok "sh"
    ∧ (∀ s : String, resolveShell (some (OsStr.utf8 s)) = Except.ok s)
    ∧ resolveShell (some OsStr.nonUtf8) = Except.error "Invalid SHELL" :=
  ⟨rfl, fun _ => rfl, rfl⟩



theorem uidmap_triples_partition_witness :
    (1 ≤ 1000 ∧ 1000 < MAX_UID_COUNT)
    ∧ (List.Pairwise
        (fun a b => ∀ x : Nat, ¬(containerCovers a x = true ∧ containerCovers b x = true))
        (uidmapTriples 1000)
      ∧ (∀ x : Nat, x < MAX_UID_COUNT →
          (uidmapTriples 1000).countP (fun t => containerCovers t x) = 1)
      ∧ mapHostUid (1000, 0, 1) 1000 = some 0
      ∧ (1000, 0, 1) ∈ uidmapTriples 1000) :=
  ⟨⟨by decide, by decide⟩, uidmap_triples_partition 1000 (by decide) (by decide)⟩

theorem handshake_roundtrip_witness :
    ((⟨"Ünïcødé \"user\" \\ \x01", 4294967295, true⟩ : EntrypointState).uid < U32_MOD)
    ∧ decodeEntrypointState
        (encodeEntrypointState ⟨"Ünïcødé \"user\" \\ \x01", 4294967295, true⟩)
        = some ⟨"Ünïcødé \"user\" \\ \x01", 4294967295, true⟩ :=
  ⟨by decide,
   handshake_roundtrip ⟨"Ünïcødé \"user\" \\ \x01", 4294967295, true⟩ (by decide)⟩

theorem conditional_mounts_dichotomy_witness :
    (run stOstree psAllImages true defaultImage = Except.ok planOstree)
    ∧ (List.Sublist (conditionalMountArgs (is_ostree_based_host stOstree.pathExists))
        planOstree.cmd.args
      ∧ (conditionalMountArgs (is_ostree_based_host stOstree.pathExists)
          = ["--volume=/sysroot:/host/sysroot:rslave"]
        ↔ is_ostree_based_host stOstree.pathExists = true)
      ∧ (conditionalMountArgs (is_ostree_based_host stOstree.pathExists)
          = ["--volume=/media:/host/media:rslave", "--volume=/mnt:/host/mnt:rslave",
             "--volume=/home:/host/home:rslave", "--volume=/srv:/host/srv:rslave"]
        ↔ is_ostree_based_host stOstree.pathExists = false)) :=
  ⟨rfl, conditional_mounts_dichotomy stOstree psAllImages true defaultImage planOstree rfl⟩

theorem ensure_image_spec_witness :
    (psAllImages.hasImage defaultImage = true)
    ∧ ensure_image (fun _ => none) psAllImages true defaultImage
        = (psAllImages,
           [⟨cmd_podman (fun _ => none), ["inspect", "--type", "image", defaultImage]⟩],
           Except.ok ()) :=
  ⟨rfl, (((ensure_image_spec (fun _ => none) psAllImages true defaultImage).1) rfl).1⟩

theorem statefile_name_consistency_witness :
    (run stScenario psAllImages true defaultImage = Except.ok planScenario)
    ∧ ((∃ rd, stScenario.env "XDG_RUNTIME_DIR" = some rd
        ∧ planScenario.statefilePath
            = rd ++ "/" ++ statefileName stScenario.pid stScenario.randomVal)
      ∧ ("--env=TOOLBOX_STATEFILE=" ++ statefileName stScenario.pid stScenario.randomVal)
          ∈ planScenario.cmd.args
      ∧ statefileName stScenario.pid stScenario.randomVal
          = "toolbox-data-" ++ natDec stScenario.pid ++ "-" ++ natHex stScenario.randomVal) :=
  ⟨rfl,
   statefile_name_consistency stScenario psAllImages true defaultImage planScenario rfl⟩

theorem podman_binary_override_witness :
    (run stOstree psAllImages true defaultImage = Except.ok planOstree)
    ∧ (planOstree.cmd.bin = cmd_podman stOstree.env
      ∧ (∀ c ∈ (ensure_image stOstree.env psAllImages true defaultImage).2.1,
          c.bin = cmd_podman stOstree.env)
      ∧ (∀ p, stOstree.env "podman" = some p → cmd_podman stOstree.env = p)
      ∧ (stOstree.env "podman" = none → cmd_podman stOstree.env = "podman")) :=
  ⟨rfl, podman_binary_override stOstree psAllImages true defaultImage planOstree rfl⟩

end Coretoolbox
